import Mathlib

/-!
Verification of the text-to-speech chunking, generation, caching and
playback-queue subsystem (src/services/tts-service.js and the settings
comparison in src/pages/index.vue).

Modelling conventions:
* JavaScript strings are modelled as `List Char` (`Str`); `.length` is the
  UTF-16 length, which coincides with the list length for the BMP characters
  used throughout.
* JavaScript numbers that only ever hold simple decimal values (playback
  speed) are modelled as exact rationals; where the code renders a number to
  a string (`speed.toString()`), the rendered string is passed explicitly.
* Fallible operations return `Except`; a thrown JS exception is an
  `Except.error`.
* Asynchronous callbacks (`onended`, `onerror`, promise continuations) are
  not part of the synchronous effect of a method call; each method of the
  queue manager is modelled as a function from state to state together with
  the list of UI callbacks it fires synchronously.
-/

set_option maxHeartbeats 1000000
set_option maxRecDepth 16384

abbrev Str := List Char

/-! ## Small character/string helpers shared by all components -/

def spaceC : Char := ' '
def dotC : Char := '.'
def bangC : Char := '!'
def qmC : Char := '?'
def commaC : Char := ','
def semiC : Char := ';'
def colonC : Char := ':'
def lparC : Char := '('
def rparC : Char := ')'
def dquoteC : Char := '"'
def squoteC : Char := '\''
def dollarC : Char := '$'
def pctC : Char := '%'
def atC : Char := '@'
def dashC : Char := '-'
def underC : Char := '_'
def plusC : Char := '+'
def bslashC : Char := '\\'
def tabC : Char := '\t'
def nlC : Char := '\n'
def crC : Char := '\r'
def ffC : Char := '\x0c'
def vtC : Char := '\x0b'

/-- The characters treated as whitespace (`\s` / `trim`); restricted to the
ASCII whitespace characters, which are the only whitespace characters that
occur in the modelled data. -/
def isWsChar (c : Char) : Bool :=
  c = spaceC || c = tabC || c = nlC || c = crC || c = ffC || c = vtC

/-- `String.prototype.trim`: drop leading and trailing whitespace. -/
def trimL (s : Str) : Str :=
  ((s.dropWhile isWsChar).reverse.dropWhile isWsChar).reverse

/-! ## AudioQueueManager (src/services/tts-service.js, class AudioQueueManager)

The manager's mutable fields are gathered in `QueueState`.  Audio blobs and
text chunks are opaque to the navigation/control logic (only the queue length
and element presence are consulted), so they are modelled as `Unit` entries.
`currentAudio` / `currentUtterance` model whether the corresponding field is
non-null.  UI callbacks (`onPlaybackStart`, `onPlaybackEnd`, `onChunkChange`)
are modelled as always registered; each method returns the events it fires.
`QEvent.audioStart i` records that the method actually started audible
playback of chunk `i` (`speechSynthesis.speak` or `audio.play()`). -/

inductive TtsEngine
  | webSpeech
  | openTts
deriving DecidableEq, Repr

structure QueueState where
  audioQueue : List Unit
  textChunks : List Unit
  currentIndex : Nat
  isPlaying : Bool
  isPaused : Bool
  currentAudio : Bool
  currentUtterance : Bool
  engine : Option TtsEngine
  voiceId : Option Str
  speed : ℚ
  isGenerating : Bool
deriving DecidableEq, Repr

inductive QEvent
  | playbackStart
  | playbackEnd
  | chunkChange (i n : Nat)
  | audioStart (i : Nat)
deriving DecidableEq, Repr

/-- The `AudioQueueManager` constructor. -/
def initialQueueState : QueueState :=
  { audioQueue := [], textChunks := [], currentIndex := 0,
    isPlaying := false, isPaused := false,
    currentAudio := false, currentUtterance := false,
    engine := none, voiceId := none, speed := 1, isGenerating := false }

/-- `stop()`: clears both flags, cancels the in-flight unit (per engine
branch), resets the index and fires `onPlaybackEnd`. -/
def stopM (s : QueueState) : QueueState × List QEvent :=
  let s := { s with isPlaying := false, isPaused := false }
  let s :=
    if s.engine = some TtsEngine.webSpeech then { s with currentUtterance := false }
    else if s.currentAudio then { s with currentAudio := false }
    else s
  ({ s with currentIndex := 0 }, [QEvent.playbackEnd])

/-- `playCurrentChunk()`: past the end of the queue it calls `stop()`;
otherwise it fires `onChunkChange` and hands the current unit to the engine
(`playWebSpeechChunk` / `playAudioBlob`), which stores the utterance/audio
element and begins sounding only while `isPlaying && !isPaused`.  The
asynchronous auto-advance on unit completion is not part of this synchronous
effect.  Queued web-speech payloads are assumed well-formed with non-empty
text (they are produced by `generateWebSpeech`). -/
def playCurrentChunkM (s : QueueState) : QueueState × List QEvent :=
  if s.audioQueue.length ≤ s.currentIndex then stopM s
  else
    let evs := [QEvent.chunkChange s.currentIndex s.audioQueue.length]
    if s.engine = some TtsEngine.webSpeech then
      let s := { s with currentUtterance := true }
      (s, evs ++ if s.isPlaying && !s.isPaused then [QEvent.audioStart s.currentIndex] else [])
    else
      let s := { s with currentAudio := true }
      (s, evs ++ if s.isPlaying && !s.isPaused then [QEvent.audioStart s.currentIndex] else [])

/-- `play()`: no-op on an empty queue; otherwise sets `isPlaying`, clears
`isPaused`, fires `onPlaybackStart` and plays the current chunk. -/
def playM (s : QueueState) : QueueState × List QEvent :=
  if s.audioQueue.length = 0 then (s, [])
  else
    let s := { s with isPlaying := true, isPaused := false }
    let (s2, evs) := playCurrentChunkM s
    (s2, QEvent.playbackStart :: evs)

/-- `pause()`: sets `isPaused` and suspends the underlying element; note that
it does NOT clear `isPlaying`. -/
def pauseM (s : QueueState) : QueueState × List QEvent :=
  ({ s with isPaused := true }, [])

/-- `resume()`: clears `isPaused` and resumes (or restarts) the underlying
element; sounding resumes when an utterance/audio element is held.  The
ambient `speechSynthesis.paused` flag is approximated by the presence of the
current utterance. -/
def resumeM (s : QueueState) : QueueState × List QEvent :=
  let s := { s with isPaused := false }
  if s.engine = some TtsEngine.webSpeech then
    (s, if s.currentUtterance then [QEvent.audioStart s.currentIndex] else [])
  else
    (s, if s.currentAudio then [QEvent.audioStart s.currentIndex] else [])

/-- `stopCurrentChunk()` helper used by `next()`/`previous()`. -/
def stopCurrentChunkM (s : QueueState) : QueueState :=
  if s.engine = some TtsEngine.webSpeech then { s with currentUtterance := false }
  else if s.currentAudio then { s with currentAudio := false }
  else s

/-- `next()`: guarded by `currentIndex < audioQueue.length - 1` (JS number
arithmetic, hence the `Int` comparison: an empty queue gives `-1`).  Stops the
current chunk, advances the index, fires `onChunkChange`, and — when
`wasPlaying` (read from `isPlaying` at the moment of the call) — restarts
playback of the new chunk.  Returns whether navigation happened. -/
def nextM (s : QueueState) : Bool × QueueState × List QEvent :=
  if (s.currentIndex : Int) < (s.audioQueue.length : Int) - 1 then
    let wasPlaying := s.isPlaying
    let s := stopCurrentChunkM s
    let s := { s with currentIndex := s.currentIndex + 1 }
    let evs := [QEvent.chunkChange s.currentIndex s.audioQueue.length]
    if wasPlaying then
      let s := { s with isPlaying := true, isPaused := false }
      let (s2, evs2) := playCurrentChunkM s
      (true, s2, evs ++ evs2)
    else (true, s, evs)
  else (false, s, [])

/-- `previous()`: guarded by `currentIndex > 0`; otherwise as `next()`. -/
def previousM (s : QueueState) : Bool × QueueState × List QEvent :=
  if 0 < s.currentIndex then
    let wasPlaying := s.isPlaying
    let s := stopCurrentChunkM s
    let s := { s with currentIndex := s.currentIndex - 1 }
    let evs := [QEvent.chunkChange s.currentIndex s.audioQueue.length]
    if wasPlaying then
      let s := { s with isPlaying := true, isPaused := false }
      let (s2, evs2) := playCurrentChunkM s
      (true, s2, evs ++ evs2)
    else (true, s, evs)
  else (false, s, [])

/-- `seekToChunk(chunkIndex)`: in-range seeks behave like `next`/`previous`
at an arbitrary index (the index argument is a non-negative integer; the JS
`chunkIndex >= 0` guard is implicit in the `Nat` type). -/
def seekToChunkM (s : QueueState) (chunkIndex : Nat) : Bool × QueueState × List QEvent :=
  if chunkIndex < s.audioQueue.length then
    let wasPlaying := s.isPlaying
    let s := stopCurrentChunkM s
    let s := { s with currentIndex := chunkIndex }
    let evs := [QEvent.chunkChange s.currentIndex s.audioQueue.length]
    if wasPlaying then
      let s := { s with isPlaying := true, isPaused := false }
      let (s2, evs2) := playCurrentChunkM s
      (true, s2, evs ++ evs2)
    else (true, s, evs)
  else (false, s, [])

/-- `cleanup()`: `stop()`, clear the generation flag, release object URLs
(no modelled state) and empty the queue. -/
def cleanupM (s : QueueState) : QueueState × List QEvent :=
  let (s, evs) := stopM s
  let s := { s with isGenerating := false }
  ({ s with audioQueue := [], textChunks := [] }, evs)

/-- `loadAudioQueue(audioBlobs, engine, textChunks, voiceId, speed)`:
`cleanup()` first, then install the new queue. -/
def loadAudioQueueM (s : QueueState) (audioBlobs : List Unit) (engine : TtsEngine)
    (textChunks : List Unit) (voiceId : Option Str) (speed : ℚ) :
    QueueState × List QEvent :=
  let (s, evs) := cleanupM s
  ({ s with audioQueue := audioBlobs, textChunks := textChunks, currentIndex := 0,
            engine := some engine, voiceId := voiceId, speed := speed }, evs)

/-- One public method call of the queue manager, for reachability over call
sequences.  `load n e` loads a queue of `n` (opaque) generated units. -/
inductive QOp
  | load (n : Nat) (engine : TtsEngine)
  | play
  | pause
  | resume
  | stop
  | next
  | previous
  | seek (k : Nat)
  | cleanup
deriving DecidableEq, Repr

def stepQ (s : QueueState) (op : QOp) : QueueState :=
  match op with
  | QOp.load n e => (loadAudioQueueM s (List.replicate n ()) e (List.replicate n ()) none 1).1
  | QOp.play => (playM s).1
  | QOp.pause => (pauseM s).1
  | QOp.resume => (resumeM s).1
  | QOp.stop => (stopM s).1
  | QOp.next => (nextM s).2.1
  | QOp.previous => (previousM s).2.1
  | QOp.seek k => (seekToChunkM s k).2.1
  | QOp.cleanup => (cleanupM s).1

/-- The state reached from a fresh manager after a sequence of calls. -/
def runQ (ops : List QOp) : QueueState := ops.foldl stepQ initialQueueState

/-! ### C1 -/

/-- C1 counterexample: the state reached by `loadAudioQueue([unit]); play();
pause()` has `isPlaying` and `isPaused` simultaneously true — `pause()` sets
`isPaused` without clearing `isPlaying` — refuting the claimed invariant. -/
theorem C1_counterexample :
    (runQ [QOp.load 1 TtsEngine.openTts, QOp.play, QOp.pause]).isPlaying = true ∧
    (runQ [QOp.load 1 TtsEngine.openTts, QOp.play, QOp.pause]).isPaused = true := by
  decide

/-- C1 amended: `isPlaying && isPaused` is reachable (pausing during
playback), so it is not an invariant; what holds instead is that `stop()`,
`cleanup()` and `loadAudioQueue()` always leave both flags false, `play()` on
a non-empty queue leaves `isPaused` false, and `resume()` leaves `isPaused`
false. -/
theorem C1_flags_amended (s : QueueState) (blobs chunks : List Unit)
    (e : TtsEngine) (v : Option Str) (sp : ℚ) :
    ((stopM s).1.isPlaying = false ∧ (stopM s).1.isPaused = false) ∧
    ((cleanupM s).1.isPlaying = false ∧ (cleanupM s).1.isPaused = false) ∧
    ((loadAudioQueueM s blobs e chunks v sp).1.isPlaying = false ∧
      (loadAudioQueueM s blobs e chunks v sp).1.isPaused = false) ∧
    (s.audioQueue ≠ [] → (playM s).1.isPaused = false) ∧
    ((resumeM s).1.isPaused = false) := by
  simp only [stopM, cleanupM, loadAudioQueueM, playM, playCurrentChunkM, resumeM]
  split_ifs <;> simp_all

theorem C1_flags_amended_witness :
    ((stopM initialQueueState).1.isPlaying = false ∧
      (stopM initialQueueState).1.isPaused = false) ∧
    (((runQ [QOp.load 1 TtsEngine.openTts]).audioQueue ≠ [] →
      (playM (runQ [QOp.load 1 TtsEngine.openTts])).1.isPaused = false)) := by
  refine ⟨(C1_flags_amended initialQueueState [] [] TtsEngine.openTts none 1).1, ?_⟩
  exact fun _ =>
    ((C1_flags_amended (runQ [QOp.load 1 TtsEngine.openTts]) [] [] TtsEngine.openTts
        none 1).2.2.2.1 (by decide))

/-! ### C2 -/

/-- C2 counterexample: after `loadAudioQueue` of two units, `play()`,
`pause()`, the manager is Paused (`isPaused = true` at the moment of the
call), yet `next()` does NOT leave the new chunk cued and silent: because
`pause()` leaves `isPlaying` true, `wasPlaying` is true, so `next()` clears
`isPaused` and immediately starts audible playback of chunk 1
(`QEvent.audioStart 1` is fired). -/
theorem C2_counterexample :
    (runQ [QOp.load 2 TtsEngine.openTts, QOp.play, QOp.pause]).isPaused = true ∧
    (nextM (runQ [QOp.load 2 TtsEngine.openTts, QOp.play, QOp.pause])).2.1.isPaused = false ∧
    (nextM (runQ [QOp.load 2 TtsEngine.openTts, QOp.play, QOp.pause])).2.1.isPlaying = true ∧
    QEvent.audioStart 1 ∈ (nextM (runQ [QOp.load 2 TtsEngine.openTts, QOp.play, QOp.pause])).2.2 := by
  decide

/-- C2 amended: `next()` inspects `this.isPlaying` at the moment of the call
as "was playing"; since `pause()` leaves `isPlaying` true, `next()` while
Paused-after-playing moves the index, fires the chunk-change event, clears
`isPaused` and immediately starts playing the new chunk; the new chunk is
left cued but silent only when `isPlaying` is false at the call (the manager
never played, or was stopped). -/
theorem C2_next_amended (s : QueueState)
    (h : (s.currentIndex : Int) < (s.audioQueue.length : Int) - 1) :
    (s.isPlaying = true →
      (nextM s).2.1.isPlaying = true ∧ (nextM s).2.1.isPaused = false ∧
      QEvent.audioStart (s.currentIndex + 1) ∈ (nextM s).2.2) ∧
    (s.isPlaying = false →
      (nextM s).2.1.isPlaying = false ∧ (nextM s).2.1.isPaused = s.isPaused ∧
      (nextM s).2.1.currentIndex = s.currentIndex + 1 ∧
      (nextM s).2.2 = [QEvent.chunkChange (s.currentIndex + 1) s.audioQueue.length] ∧
      (∀ i, QEvent.audioStart i ∉ (nextM s).2.2)) := by
  have hlt : s.currentIndex + 1 < s.audioQueue.length := by omega
  constructor
  · intro hp
    simp only [nextM, stopCurrentChunkM, playCurrentChunkM, stopM, hp]
    rw [if_pos h]
    split_ifs <;> simp_all <;> omega
  · intro hp
    simp only [nextM, stopCurrentChunkM, playCurrentChunkM, stopM, hp]
    rw [if_pos h]
    split_ifs <;> simp_all

theorem C2_next_amended_witness :
    (nextM (runQ [QOp.load 2 TtsEngine.openTts])).2.1.isPlaying = false ∧
    (nextM (runQ [QOp.load 2 TtsEngine.openTts])).2.1.currentIndex =
      (runQ [QOp.load 2 TtsEngine.openTts]).currentIndex + 1 ∧
    (nextM (runQ [QOp.load 2 TtsEngine.openTts])).2.2 =
      [QEvent.chunkChange ((runQ [QOp.load 2 TtsEngine.openTts]).currentIndex + 1)
        (runQ [QOp.load 2 TtsEngine.openTts]).audioQueue.length] ∧
    QEvent.audioStart 1 ∉ (nextM (runQ [QOp.load 2 TtsEngine.openTts])).2.2 :=
  have h := (C2_next_amended (runQ [QOp.load 2 TtsEngine.openTts]) (by decide)).2 (by decide)
  ⟨h.1, h.2.2.1, h.2.2.2.1, h.2.2.2.2 1⟩

/-! ### C10 -/

/-- C10: `next()`/`previous()` return `true` exactly when navigation is
possible; at the last chunk (`next`) or index 0 (`previous`) they return
`false` and leave the entire state untouched, firing no events; when they
return `true` the index has changed. -/
theorem C10_navigation (s : QueueState) :
    (¬ ((s.currentIndex : Int) < (s.audioQueue.length : Int) - 1) →
      nextM s = (false, s, [])) ∧
    (((s.currentIndex : Int) < (s.audioQueue.length : Int) - 1) →
      (nextM s).1 = true ∧ (nextM s).2.1.currentIndex ≠ s.currentIndex) ∧
    (¬ (0 < s.currentIndex) → previousM s = (false, s, [])) ∧
    (0 < s.currentIndex →
      (previousM s).1 = true ∧ (previousM s).2.1.currentIndex ≠ s.currentIndex) := by
  refine ⟨?_, ?_, ?_, ?_⟩
  · intro h
    unfold nextM
    rw [if_neg h]
  · intro h
    have hlt : s.currentIndex + 1 < s.audioQueue.length := by omega
    simp only [nextM, stopCurrentChunkM, playCurrentChunkM, stopM]
    rw [if_pos h]
    split_ifs <;> simp_all <;> omega
  · intro h
    unfold previousM
    rw [if_neg h]
  · intro h
    simp only [previousM, stopCurrentChunkM, playCurrentChunkM, stopM]
    rw [if_pos h]
    split_ifs <;> simp_all <;> omega

theorem C10_navigation_witness :
    nextM initialQueueState = (false, initialQueueState, []) ∧
    previousM initialQueueState = (false, initialQueueState, []) :=
  ⟨(C10_navigation initialQueueState).1 (by decide),
   (C10_navigation initialQueueState).2.2.1 (by decide)⟩

/-! ## Settings-change detection (src/pages/index.vue, hasAudioSettingsChanged /
getCurrentAudioSettings)

The comparison core: both settings objects present (the vue guard for a
missing saved settings object or incomplete initial load merely suppresses
the comparison).  Speeds are modelled as exact rationals. -/

def strL (s : String) : Str := s.toList

structure AudioSettings where
  engine : Str
  voiceId : Str
  speed : ℚ
  speaker : Option Str
  chunkSize : Nat
deriving DecidableEq, Repr

/-- `hasAudioSettingsChanged`: any engine/voice/speaker/chunk-size mismatch,
or an absolute speed difference of at least 0.1, counts as changed. -/
def hasAudioSettingsChangedM (current saved : AudioSettings) : Bool :=
  decide (current.engine ≠ saved.engine) ||
  decide (current.voiceId ≠ saved.voiceId) ||
  decide ((1 : ℚ)/10 ≤ |current.speed - saved.speed|) ||
  decide (current.speaker ≠ saved.speaker) ||
  decide (current.chunkSize ≠ saved.chunkSize)

theorem hasAudioSettingsChangedM_eq_false_iff (current saved : AudioSettings) :
    hasAudioSettingsChangedM current saved = false ↔
      (current.engine = saved.engine ∧ current.voiceId = saved.voiceId ∧
       current.speaker = saved.speaker ∧ current.chunkSize = saved.chunkSize ∧
       |current.speed - saved.speed| < 1/10) := by
  simp only [hasAudioSettingsChangedM, Bool.or_eq_false_iff,
    decide_eq_false_iff_not, not_not, not_le]
  constructor
  · rintro ⟨⟨⟨⟨h1, h2⟩, h3⟩, h4⟩, h5⟩
    exact ⟨h1, h2, h4, h5, h3⟩
  · rintro ⟨h1, h2, h4, h5, h3⟩
    exact ⟨⟨⟨⟨h1, h2⟩, h3⟩, h4⟩, h5⟩

/-- C9: two settings objects are equivalent (no regeneration required) iff
engine, voiceId, speaker and chunkSize match exactly and the absolute speed
difference is strictly below 0.1; concretely, saved speed 1.0 vs current
1.05 is equivalent while current 1.2 is not. -/
theorem C9_settings_equivalence :
    (∀ current saved : AudioSettings,
      hasAudioSettingsChangedM current saved = false ↔
        (current.engine = saved.engine ∧ current.voiceId = saved.voiceId ∧
         current.speaker = saved.speaker ∧ current.chunkSize = saved.chunkSize ∧
         |current.speed - saved.speed| < 1/10)) ∧
    hasAudioSettingsChangedM
      { engine := strL "open-tts", voiceId := strL "v1", speed := 21/20,
        speaker := none, chunkSize := 500 }
      { engine := strL "open-tts", voiceId := strL "v1", speed := 1,
        speaker := none, chunkSize := 500 } = false ∧
    hasAudioSettingsChangedM
      { engine := strL "open-tts", voiceId := strL "v1", speed := 6/5,
        speaker := none, chunkSize := 500 }
      { engine := strL "open-tts", voiceId := strL "v1", speed := 1,
        speaker := none, chunkSize := 500 } = true := by
  refine ⟨hasAudioSettingsChangedM_eq_false_iff, ?_, ?_⟩
  · rw [hasAudioSettingsChangedM_eq_false_iff]
    refine ⟨rfl, rfl, rfl, rfl, ?_⟩
    show |(21 : ℚ)/20 - 1| < 1/10
    rw [show (21 : ℚ)/20 - 1 = 1/20 by norm_num,
      abs_of_nonneg (by norm_num : (0 : ℚ) ≤ 1/20)]
    norm_num
  · have h : (1 : ℚ)/10 ≤ |(6 : ℚ)/5 - 1| := by
      rw [show (6 : ℚ)/5 - 1 = 1/5 by norm_num,
        abs_of_nonneg (by norm_num : (0 : ℚ) ≤ 1/5)]
      norm_num
    simp only [hasAudioSettingsChangedM, Bool.or_eq_true, decide_eq_true_eq]
    exact Or.inl (Or.inl (Or.inr h))

/-! ## Cache key generation (AudioCacheManager.generateCacheKey)

`text` and `voiceId` are JS values that may be `null`/`undefined`, modelled
as `Option Str`; calling a string method on `null` throws a `TypeError`.
`speed` is a JS number passed through `speed.toString()`; the function is
modelled over that decimal rendering (`speedStr`).  `Date.now()` is an
environment input (`nowMs`). -/

inductive JsError
  | typeError
deriving DecidableEq, Repr

def isAlnumC (c : Char) : Bool := c.isAlpha || c.isDigit

/-- Digit character for bases up to 36 (lowercase letters above 9), as used
by JS `Number.prototype.toString(36)`. -/
def digitBase (n : Nat) : Char :=
  if n < 10 then Char.ofNat (48 + n) else Char.ofNat (87 + n)

/-- Fuelled positional rendering; fuel `n + 1` always suffices since the
value shrinks by a factor of the base each step. -/
def natToBaseF (b : Nat) : Nat → Nat → Str
  | 0, _ => []
  | f + 1, n => if n < b then [digitBase n] else natToBaseF b f (n / b) ++ [digitBase (n % b)]

def natToBase36 (n : Nat) : Str := natToBaseF 36 (n + 1) n

def natToDec (n : Nat) : Str := natToBaseF 10 (n + 1) n

/-- `JSON.stringify` escaping of a single string character. -/
def jsonEscapeChar (c : Char) : Str :=
  if c = dquoteC then [bslashC, dquoteC]
  else if c = bslashC then [bslashC, bslashC]
  else if c = nlC then [bslashC, 'n']
  else if c = crC then [bslashC, 'r']
  else if c = tabC then [bslashC, 't']
  else if c.toNat = 8 then [bslashC, 'b']
  else if c.toNat = 12 then [bslashC, 'f']
  else if c.toNat < 32 then
    [bslashC, 'u', digitBase 0, digitBase 0, digitBase (c.toNat / 16), digitBase (c.toNat % 16)]
  else [c]

/-- `JSON.stringify` of a string value. -/
def jsonStringL (s : Str) : Str :=
  [dquoteC] ++ s.foldr (fun c acc => jsonEscapeChar c ++ acc) [] ++ [dquoteC]

/-- `JSON.stringify({ text, voiceId, engine, speed, speaker })` with the
object keys in insertion order. -/
def keyDataJson (normText voiceId engine speedStr : Str) (speaker : Option Str) : Str :=
  strL "\x7b\"text\":" ++ jsonStringL normText ++
  strL ",\"voiceId\":" ++ jsonStringL voiceId ++
  strL ",\"engine\":" ++ jsonStringL engine ++
  strL ",\"speed\":" ++ speedStr ++
  strL ",\"speaker\":" ++ (match speaker with
    | none => strL "null"
    | some sp => jsonStringL sp) ++
  strL "\x7d"

/-- 32-bit signed wrap-around, as applied by the JS bitwise operations
(`hash = hash & hash`). -/
def toInt32 (n : Int) : Int :=
  let m := n % 4294967296
  if 2147483648 ≤ m then m - 4294967296 else m

/-- One step of the rolling hash: `hash = (hash << 5) - hash + charCode`
followed by truncation to Int32; `charCodeAt` is the UTF-16 code unit,
identified here with the code point (BMP characters only). -/
def hashStep (h : Int) (c : Char) : Int := toInt32 (31 * h + c.toNat)

def jsHash (s : Str) : Int := s.foldl hashStep 0

/-- `voiceId.split(":").pop()`: the substring after the last colon. -/
def afterLastColon (s : Str) : Str :=
  (s.reverse.takeWhile (fun c => c ≠ colonC)).reverse

/-- `.replace(/[^a-zA-Z0-9]/g, "")`. -/
def filterAlnum (s : Str) : Str := s.filter isAlnumC

/-- `speedStr.replace(".", "_")`: a string-pattern replace rewrites only the
first occurrence. -/
def replaceFirstDot : Str → Str
  | [] => []
  | c :: r => if c = dotC then underC :: r else c :: replaceFirstDot r

def toLowerL (s : Str) : Str := s.map Char.toLower

/-- The try-block body of `generateCacheKey` on non-null string inputs:
normalized-text JSON hash plus the human-legible key parts. -/
def mkNormalCacheKey (text voiceId engine speedStr : Str) (speaker : Option Str) : Str :=
  let normalizedText := toLowerL (trimL text)
  let jsonStr := keyDataJson normalizedText voiceId engine speedStr speaker
  let hash := jsHash jsonStr
  let engineTag := if engine = strL "web-speech" then strL "web" else strL "tts"
  let voiceShort := (filterAlnum (afterLastColon voiceId)).take 10
  let speedKey := replaceFirstDot speedStr
  let speakerKey :=
    match speaker with
    | some sp => if sp = [] then [] else dashC :: filterAlnum sp
    | none => []
  engineTag ++ [dashC] ++ voiceShort ++ [dashC] ++ speedKey ++ speakerKey ++
    [dashC] ++ natToBase36 hash.natAbs

/-- `generateCacheKey(text, voiceId, engine, speed, speaker)`.
`text.trim()` runs before the try/catch, so a null `text` throws without
reaching the catch; inside the try, a null `voiceId` throws at
`voiceId.split(":")`, and the catch handler's fallback key dereferences
`voiceId` again, so the fallback itself throws in that case.  On string
inputs the try body has no failure point. -/
def generateCacheKeyM (text voiceId : Option Str) (engine speedStr : Str)
    (speaker : Option Str) (nowMs : Nat) : Except JsError Str :=
  match text with
  | none => Except.error JsError.typeError
  | some t =>
    let tried : Except JsError Str :=
      match voiceId with
      | none => Except.error JsError.typeError
      | some v => Except.ok (mkNormalCacheKey t v engine speedStr speaker)
    match tried with
    | Except.ok k => Except.ok k
    | Except.error _ =>
      match voiceId with
      | none => Except.error JsError.typeError
      | some v => Except.ok (engine ++ [dashC] ++ afterLastColon v ++ [dashC] ++ natToDec nowMs)

/-- C8 counterexample: `generateCacheKey` does throw for some inputs — a
null/undefined `text` throws a TypeError from the normalization step that
runs before the try/catch, and with a null `voiceId` even the catch
handler's fallback key construction throws — so the never-throw claim fails
as stated. -/
theorem C8_counterexample :
    generateCacheKeyM none (some (strL "coqui-tts:en_ljspeech")) (strL "open-tts")
      (strL "1") none 1700000000000 = Except.error JsError.typeError ∧
    generateCacheKeyM (some (strL "hello")) none (strL "open-tts")
      (strL "1") none 1700000000000 = Except.error JsError.typeError :=
  ⟨rfl, rfl⟩

/-- C8 amended: when `text` and `voiceId` are (non-null) strings, the try
block has no failure point, so `generateCacheKey` never throws and always
returns the normal key (the time-based fallback is unreachable); the
never-throw guarantee does not extend to null/undefined `text` or `voiceId`,
for which the function throws a TypeError. -/
theorem C8_never_throws_amended (text voiceId engine speedStr : Str)
    (speaker : Option Str) (nowMs : Nat) :
    generateCacheKeyM (some text) (some voiceId) engine speedStr speaker nowMs =
      Except.ok (mkNormalCacheKey text voiceId engine speedStr speaker) := rfl

/-! ## Two-tier audio cache (AudioCacheManager) and per-chunk generation

Tier 1 is the in-process `memoryCache` Map, tier 2 the IndexedDB store;
both are modelled as association lists with Map.set overwrite semantics.
Whether the durable tier-2 write fails is an environment input
(`tier2WriteFails`); tier-2 read errors are not modelled (the claims concern
the write path).  A tier-2 hit reconstructs a Blob from the stored bytes
with the same payload, so payloads compare by contents. -/

inductive AudioPayload
  | wav (bytes : List Nat)
  | webSpeechJson (text voiceId speedStr : Str)
deriving DecidableEq, Repr

structure CacheState where
  memoryCache : List (Str × AudioPayload)
  indexedDb : List (Str × AudioPayload)
deriving DecidableEq, Repr

def emptyCacheState : CacheState := { memoryCache := [], indexedDb := [] }

def lookupA (m : List (Str × AudioPayload)) (k : Str) : Option AudioPayload :=
  (m.find? (fun p => p.1 == k)).map (fun p => p.2)

def insertA (m : List (Str × AudioPayload)) (k : Str) (v : AudioPayload) :
    List (Str × AudioPayload) :=
  (k, v) :: m.filter (fun p => !(p.1 == k))

/-- `setCachedAudio(cacheKey, audioBlob, metadata)`: the memory tier is
written first and unconditionally; the IndexedDB `put` follows and its
rejection is the returned error. -/
def setCachedAudio (s : CacheState) (tier2WriteFails : Bool) (cacheKey : Str)
    (audioBlob : AudioPayload) : CacheState × Except Unit Unit :=
  let s := { s with memoryCache := insertA s.memoryCache cacheKey audioBlob }
  if tier2WriteFails then (s, Except.error ())
  else ({ s with indexedDb := insertA s.indexedDb cacheKey audioBlob }, Except.ok ())

/-- `getCachedAudio(cacheKey)`: memory tier first; an IndexedDB hit
populates the memory tier before returning. -/
def getCachedAudio (s : CacheState) (cacheKey : Str) : CacheState × Option AudioPayload :=
  match lookupA s.memoryCache cacheKey with
  | some b => (s, some b)
  | none =>
    match lookupA s.indexedDb cacheKey with
    | some b => ({ s with memoryCache := insertA s.memoryCache cacheKey b }, some b)
    | none => (s, none)

inductive GenError
  | ttsRequestFailed (status : Nat) (body : Str)
  | cacheWriteError
deriving DecidableEq, Repr

/-- `generateOpenTTSSpeech(text, voiceId, speed, speaker)`: cache lookup,
else fetch from the OpenTTS endpoint (`fetchResult` is the environment's
response), then `await audioCache.setCachedAudio(...)` INSIDE the try block
— a rejected cache write is rethrown by the catch, failing the generation
call even though the audio was fetched. -/
def generateOpenTTSSpeechM (s : CacheState) (tier2WriteFails : Bool)
    (fetchResult : Except (Nat × Str) (List Nat))
    (text voiceId speedStr : Str) (speaker : Option Str) :
    CacheState × Except GenError AudioPayload :=
  let cacheKey := mkNormalCacheKey text voiceId (strL "open-tts") speedStr speaker
  match getCachedAudio s cacheKey with
  | (s1, some cached) => (s1, Except.ok cached)
  | (s1, none) =>
    match fetchResult with
    | Except.error (status, body) =>
      (s1, Except.error (GenError.ttsRequestFailed status body))
    | Except.ok bytes =>
      let audioBlob := AudioPayload.wav bytes
      match setCachedAudio s1 tier2WriteFails cacheKey audioBlob with
      | (s2, Except.error _) => (s2, Except.error GenError.cacheWriteError)
      | (s2, Except.ok _) => (s2, Except.ok audioBlob)

/-- `generateWebSpeech(text, voiceId, speed)`: cache lookup, else build the
structured JSON payload and call `setCachedAudio` WITHOUT awaiting it — the
tier-1 write is synchronous but a tier-2 rejection is ignored — then resolve
with the payload.  (Host speech support is assumed; the ambient `voiceName`
lookup is derived data and not part of the modelled payload identity.) -/
def generateWebSpeechM (s : CacheState) (tier2WriteFails : Bool)
    (text voiceId speedStr : Str) : CacheState × Except GenError AudioPayload :=
  let cacheKey := mkNormalCacheKey text voiceId (strL "web-speech") speedStr none
  match getCachedAudio s cacheKey with
  | (s1, some cached) => (s1, Except.ok cached)
  | (s1, none) =>
    let webSpeechBlob := AudioPayload.webSpeechJson text voiceId speedStr
    let (s2, _) := setCachedAudio s1 tier2WriteFails cacheKey webSpeechBlob
    (s2, Except.ok webSpeechBlob)

theorem lookupA_insertA_self (m : List (Str × AudioPayload)) (k : Str) (v : AudioPayload) :
    lookupA (insertA m k v) k = some v := by
  simp [lookupA, insertA, List.find?]

/-- C3 counterexample: on a cache miss with a failing tier-2 write, the
open-tts generation call itself fails (with the cache-write error), even
though the fetched audio is in tier 1 — the claim that a tier-2 failure
never fails the generation call is false for `generateOpenTTSSpeech`. -/
theorem C3_counterexample :
    (generateOpenTTSSpeechM emptyCacheState true (Except.ok [7, 7])
        (strL "hello world") (strL "coqui-tts:en_ljspeech") (strL "1") none).2 =
      Except.error GenError.cacheWriteError ∧
    lookupA (generateOpenTTSSpeechM emptyCacheState true (Except.ok [7, 7])
        (strL "hello world") (strL "coqui-tts:en_ljspeech") (strL "1") none).1.memoryCache
      (mkNormalCacheKey (strL "hello world") (strL "coqui-tts:en_ljspeech")
        (strL "open-tts") (strL "1") none) =
      some (AudioPayload.wav [7, 7]) := by
  constructor
  · rfl
  · rfl

/-- C3 amended: the tier-1 write always happens before the tier-2 attempt,
so after any generation the unit is served from tier 1 for the rest of the
session; and a tier-2 write failure does not fail the web-speech generation
call (its cache put is not awaited).  But for the open-tts engine the cache
put is awaited inside the try block and its rejection is rethrown, so on a
cache miss with a failing tier-2 write the generation call returns an error
instead of the fetched unit. -/
theorem C3_tier2_failure_amended (s : CacheState) (text voiceId speedStr : Str)
    (speaker : Option Str) (bytes : List Nat)
    (hm : lookupA s.memoryCache
      (mkNormalCacheKey text voiceId (strL "open-tts") speedStr speaker) = none)
    (hd : lookupA s.indexedDb
      (mkNormalCacheKey text voiceId (strL "open-tts") speedStr speaker) = none) :
    ((generateOpenTTSSpeechM s true (Except.ok bytes) text voiceId speedStr speaker).2 =
        Except.error GenError.cacheWriteError ∧
      (getCachedAudio
        (generateOpenTTSSpeechM s true (Except.ok bytes) text voiceId speedStr speaker).1
        (mkNormalCacheKey text voiceId (strL "open-tts") speedStr speaker)).2 =
        some (AudioPayload.wav bytes)) ∧
    (∃ b, (generateWebSpeechM s true text voiceId speedStr).2 = Except.ok b ∧
      (getCachedAudio (generateWebSpeechM s true text voiceId speedStr).1
        (mkNormalCacheKey text voiceId (strL "web-speech") speedStr none)).2 = some b) := by
  constructor
  · constructor
    · simp only [generateOpenTTSSpeechM, getCachedAudio, hm, hd, setCachedAudio, if_pos]
    · simp only [generateOpenTTSSpeechM, getCachedAudio, hm, hd, setCachedAudio, if_pos,
        lookupA_insertA_self]
  · simp only [generateWebSpeechM, getCachedAudio, setCachedAudio]
    cases hmw : lookupA s.memoryCache
        (mkNormalCacheKey text voiceId (strL "web-speech") speedStr none) with
    | some cached =>
      exact ⟨cached, rfl, by simp [hmw]⟩
    | none =>
      cases hdw : lookupA s.indexedDb
          (mkNormalCacheKey text voiceId (strL "web-speech") speedStr none) with
      | some cached =>
        exact ⟨cached, rfl, by simp [lookupA_insertA_self]⟩
      | none =>
        exact ⟨AudioPayload.webSpeechJson text voiceId speedStr, rfl,
          by simp [lookupA_insertA_self]⟩

theorem C3_tier2_failure_amended_witness :
    ((generateOpenTTSSpeechM emptyCacheState true (Except.ok [1])
        (strL "a") (strL "v") (strL "1") none).2 =
        Except.error GenError.cacheWriteError ∧
      (getCachedAudio
        (generateOpenTTSSpeechM emptyCacheState true (Except.ok [1])
          (strL "a") (strL "v") (strL "1") none).1
        (mkNormalCacheKey (strL "a") (strL "v") (strL "open-tts") (strL "1") none)).2 =
        some (AudioPayload.wav [1])) ∧
    (∃ b, (generateWebSpeechM emptyCacheState true (strL "a") (strL "v") (strL "1")).2 =
        Except.ok b ∧
      (getCachedAudio (generateWebSpeechM emptyCacheState true (strL "a") (strL "v") (strL "1")).1
        (mkNormalCacheKey (strL "a") (strL "v") (strL "web-speech") (strL "1") none)).2 =
        some b) :=
  C3_tier2_failure_amended emptyCacheState (strL "a") (strL "v") (strL "1") none [1] rfl rfl

/-! ## Batch generation orchestration (generateSpeechForChunks)

Per-chunk generation (`generateSpeech`, including its engine dispatch and
cache consultation, in a fixed cache/backend environment) is abstracted as a
function from chunk text to an `Except` result; blobs are an arbitrary type
`α` and errors are strings (JS Error messages).  `onProgress` is modelled as
always supplied; each branch returns the list of `(completed, total)`
invocations in order. -/

def isWebSpeechVoice (voiceId : Str) : Bool := (strL "web-speech:").isPrefixOf voiceId

/-- `Promise.all` over the per-chunk promises: resolves to the results in
input (index) order, or rejects if any promise rejects; the rejection value
is modelled as the first (in index order) rejection. -/
def promiseAll {α : Type} : List (Except Str α) → Except Str (List α)
  | [] => Except.ok []
  | x :: rest =>
    match x with
    | Except.error e => Except.error e
    | Except.ok b =>
      match promiseAll rest with
      | Except.error e => Except.error e
      | Except.ok bs => Except.ok (b :: bs)

/-- The web-speech branch: the `map` callbacks run synchronously up to their
first await, so `onProgress(index, total)` fires for every index, in index
order, before any generation completes; `(total, total)` fires only after
`Promise.all` resolves. -/
def webSpeechBatch {α : Type} (g : Str → Except Str α) (textChunks : List Str) :
    List (Nat × Nat) × Except Str (List α) :=
  let total := textChunks.length
  let progress := (List.range total).map (fun i => (i, total))
  match promiseAll (textChunks.map g) with
  | Except.error e => (progress, Except.error e)
  | Except.ok results => (progress ++ [(total, total)], Except.ok results)

/-- The open-tts branch: strictly sequential; `onProgress(i, total)` fires
before generating chunk `i`; a failure aborts the loop and discards the
partial `audioBlobs` array; `(total, total)` fires after the loop. -/
def seqBatch {α : Type} (g : Str → Except Str α) (total : Nat) :
    Nat → List Str → List (Nat × Nat) × Except Str (List α)
  | _, [] => ([(total, total)], Except.ok [])
  | i, c :: rest =>
    match g c with
    | Except.error e => ([(i, total)], Except.error e)
    | Except.ok b =>
      let (progress, res) := seqBatch g total (i + 1) rest
      ((i, total) :: progress, res.map (fun bs => b :: bs))

/-- `generateSpeechForChunks(textChunks, voiceId, speed, speaker, onProgress)`:
engine dispatch on the voice id, then the parallel (web-speech) or
sequential (open-tts) strategy. -/
def generateSpeechForChunksM {α : Type} (g : Str → Except Str α)
    (textChunks : List Str) (voiceId : Str) :
    List (Nat × Nat) × Except Str (List α) :=
  if isWebSpeechVoice voiceId then webSpeechBatch g textChunks
  else seqBatch g textChunks.length 0 textChunks

theorem promiseAll_map_ok {α : Type} (g : Str → α) (l : List Str) :
    promiseAll (l.map (fun c => Except.ok (g c))) = Except.ok (l.map g) := by
  induction l with
  | nil => rfl
  | cons c rest ih => simp [promiseAll, ih]

theorem seqBatch_all_ok {α : Type} (g : Str → α) (total : Nat) (l : List Str) (i : Nat) :
    seqBatch (fun c => Except.ok (g c)) total i l =
      ((List.range' i l.length).map (fun j => (j, total)) ++ [(total, total)],
        Except.ok (l.map g)) := by
  induction l generalizing i with
  | nil => rfl
  | cons c rest ih => simp [seqBatch, ih, List.range', Except.map]

/-- C4: for every chunk list (with per-chunk generation succeeding),
`generateSpeechForChunks` returns exactly N units whose i-th element is the
generation result for chunk i, under both the web-speech (parallel) and the
open-tts (sequential) strategy — the result equals `textChunks.map g` — and
the `onProgress` invocations are `(0,N), (1,N), …, (N-1,N), (N,N)`:
monotonically non-decreasing in the completed count and containing both
`(0, N)` and `(N, N)`. -/
theorem C4_order_and_progress {α : Type} (g : Str → α) (textChunks : List Str)
    (voiceId : Str) :
    generateSpeechForChunksM (fun c => Except.ok (g c)) textChunks voiceId =
      ((List.range textChunks.length).map (fun i => (i, textChunks.length)) ++
        [(textChunks.length, textChunks.length)],
        Except.ok (textChunks.map g)) ∧
    (0, textChunks.length) ∈
      (generateSpeechForChunksM (fun c => Except.ok (g c)) textChunks voiceId).1 ∧
    (textChunks.length, textChunks.length) ∈
      (generateSpeechForChunksM (fun c => Except.ok (g c)) textChunks voiceId).1 ∧
    List.Pairwise (fun a b : Nat × Nat => a.1 ≤ b.1)
      (generateSpeechForChunksM (fun c => Except.ok (g c)) textChunks voiceId).1 := by
  have hlog : (List.range textChunks.length).map (fun i => (i, textChunks.length)) ++
      [(textChunks.length, textChunks.length)] =
      (List.range (textChunks.length + 1)).map (fun i => (i, textChunks.length)) := by
    rw [List.range_succ, List.map_append]
    rfl
  have hmain : generateSpeechForChunksM (fun c => Except.ok (g c)) textChunks voiceId =
      ((List.range textChunks.length).map (fun i => (i, textChunks.length)) ++
        [(textChunks.length, textChunks.length)],
        Except.ok (textChunks.map g)) := by
    unfold generateSpeechForChunksM
    split
    · simp [webSpeechBatch, promiseAll_map_ok]
    · rw [seqBatch_all_ok, ← List.range_eq_range']
  refine ⟨hmain, ?_, ?_, ?_⟩
  · rw [hmain, hlog]
    exact List.mem_map.mpr ⟨0, List.mem_range.mpr (Nat.succ_pos _), rfl⟩
  · rw [hmain, hlog]
    exact List.mem_map.mpr ⟨textChunks.length, List.mem_range.mpr (Nat.lt_succ_self _), rfl⟩
  · rw [hmain, hlog]
    exact ((List.pairwise_lt_range _).imp (fun h => le_of_lt h)).map _ (fun a b hab => hab)

theorem seqBatch_error_of_first_failure {α : Type} (g : Str → Except Str α) (total : Nat)
    (l : List Str) : ∀ (start i : Nat) (hi : i < l.length) (e : Str),
      g (l.get ⟨i, hi⟩) = Except.error e →
      (∀ j (hj : j < i), ∃ b, g (l.get ⟨j, lt_trans hj hi⟩) = Except.ok b) →
      (seqBatch g total start l).2 = Except.error e := by
  induction l with
  | nil => intro start i hi; simp at hi
  | cons c rest ih =>
    intro start i hi e hfail hok
    cases i with
    | zero =>
      have hfc : g c = Except.error e := hfail
      simp [seqBatch, hfc]
    | succ i =>
      obtain ⟨b, hb⟩ := hok 0 (Nat.succ_pos i)
      have hbc : g c = Except.ok b := hb
      have hi' : i < rest.length := by simpa using hi
      have hfail' : g (rest.get ⟨i, hi'⟩) = Except.error e := hfail
      have hok' : ∀ j (hj : j < i), ∃ b', g (rest.get ⟨j, lt_trans hj hi'⟩) = Except.ok b' := by
        intro j hj
        obtain ⟨b', hb2⟩ := hok (j + 1) (Nat.succ_lt_succ hj)
        exact ⟨b', hb2⟩
      have hrec := ih (start + 1) i hi' e hfail' hok'
      simp only [seqBatch, hbc]
      cases hres : seqBatch g total (start + 1) rest with
      | mk progress res =>
        rw [hres] at hrec
        simp only at hrec
        subst hrec
        rfl

/-- C5: if generation of a single chunk fails for the open-tts (networked)
engine, the whole `generateSpeechForChunks` call fails with that single
terminal error — the result is `Except.error e`, carrying no partial list of
units (the partial `audioBlobs` accumulator is discarded). -/
theorem C5_failfast {α : Type} (g : Str → Except Str α) (textChunks : List Str)
    (voiceId : Str) (hv : isWebSpeechVoice voiceId = false)
    (i : Nat) (hi : i < textChunks.length) (e : Str)
    (hfail : g (textChunks.get ⟨i, hi⟩) = Except.error e)
    (hok : ∀ j (hj : j < i), ∃ b, g (textChunks.get ⟨j, lt_trans hj hi⟩) = Except.ok b) :
    (generateSpeechForChunksM g textChunks voiceId).2 = Except.error e := by
  unfold generateSpeechForChunksM
  simp only [hv, Bool.false_eq_true, if_false]
  exact seqBatch_error_of_first_failure g textChunks.length textChunks 0 i hi e hfail hok

theorem C5_failfast_witness :
    (generateSpeechForChunksM
      (fun c => if c = strL "a" then Except.ok 1 else Except.error (strL "boom"))
      [strL "a", strL "b"] (strL "coqui-tts:en_ljspeech")).2 =
      Except.error (strL "boom") :=
  C5_failfast _ _ _ (by decide) 1 (by decide) _ rfl
    (fun j hj => ⟨1, by
      have hj0 : j = 0 := by omega
      subst hj0
      rfl⟩)

/-! ## Text preprocessing (preprocessTextForSpeech)

Each JS `String.replace(regex, …)` with the `g` flag is modelled as a
left-to-right scanner: at each position the leftmost match of the pattern is
attempted; on a match the replacement is emitted and scanning resumes after
the matched text (replacements are not rescanned); otherwise one character is
emitted and scanning advances by one position.  The scanners take a fuel
argument — every step consumes at least one input character, so fuel
`length + 1` always suffices; the fuel-exhausted fallback returns the
remaining input unchanged and is unreachable at the fuel used. -/

def isStopC (c : Char) : Bool := c = dotC || c = bangC || c = qmC

/-- `/\s+/g → " "`: collapse every whitespace run to a single space. -/
def collapseWs : Str → Str
  | [] => []
  | [c] => if isWsChar c then [spaceC] else [c]
  | c :: d :: rest =>
    if isWsChar c then
      if isWsChar d then collapseWs (d :: rest)
      else spaceC :: collapseWs (d :: rest)
    else c :: collapseWs (d :: rest)

/-- `/([.!?])\s*([.!?])+/g → "$1"`: a sentence-punctuation character
followed (possibly after whitespace) by at least one more collapses to the
first character; scanning resumes after the punctuation run. -/
def fixStopRunsF : Nat → Str → Str
  | 0, s => s
  | _ + 1, [] => []
  | fuel + 1, c :: rest =>
    if isStopC c then
      let afterWs := rest.dropWhile isWsChar
      match afterWs with
      | d :: _ =>
        if isStopC d then c :: fixStopRunsF fuel (afterWs.dropWhile isStopC)
        else c :: fixStopRunsF fuel rest
      | [] => c :: fixStopRunsF fuel rest
    else c :: fixStopRunsF fuel rest

def fixStopRuns (s : Str) : Str := fixStopRunsF (s.length + 1) s

/-- `/,\s*,+/g → ","` and `/;\s*;+/g → ";"` (same shape, parameterised by
the character). -/
def fixCharRunsF (target : Char) : Nat → Str → Str
  | 0, s => s
  | _ + 1, [] => []
  | fuel + 1, c :: rest =>
    if c = target then
      let afterWs := rest.dropWhile isWsChar
      match afterWs with
      | d :: _ =>
        if d = target then c :: fixCharRunsF target fuel (afterWs.dropWhile (fun x => x == target))
        else c :: fixCharRunsF target fuel rest
      | [] => c :: fixCharRunsF target fuel rest
    else c :: fixCharRunsF target fuel rest

def fixCommaRuns (s : Str) : Str := fixCharRunsF commaC (s.length + 1) s

def fixSemiRuns (s : Str) : Str := fixCharRunsF semiC (s.length + 1) s

/-- JS `\w`: `[A-Za-z0-9_]`. -/
def isWordC (c : Char) : Bool := c.isAlpha || c.isDigit || c = underC

/-- Number of leading `[A-Z].` pairs, for the greedy `{2,}` quantifier of
the acronym rewrite. -/
def countAcronymPairs : Str → Nat
  | u :: d :: rest => if u.isUpper && d = dotC then countAcronymPairs rest + 1 else 0
  | _ => 0

/-- `/\b([A-Z]\.){2,}/g`, replaced by `match.replace(/\./g, " ").trim()`;
the boolean argument tracks whether the previous character was a word
character (for the `\b` boundary).  A match always ends in `.`, so the
continuation restarts at a non-word boundary. -/
def fixAcronymsF : Nat → Bool → Str → Str
  | 0, _, s => s
  | _ + 1, _, [] => []
  | fuel + 1, prevWord, c :: rest =>
    if !prevWord && c.isUpper then
      let k := countAcronymPairs (c :: rest)
      if 2 ≤ k then
        let matched := (c :: rest).take (2 * k)
        let repl := trimL (matched.map (fun x => if x = dotC then spaceC else x))
        repl ++ fixAcronymsF fuel false ((c :: rest).drop (2 * k))
      else c :: fixAcronymsF fuel true rest
    else c :: fixAcronymsF fuel (isWordC c) rest

def fixAcronyms (s : Str) : Str := fixAcronymsF (s.length + 1) false s

/-- `/(\d+)\.(\d+)/g → "$1 point $2"`. -/
def fixDecimalsF : Nat → Str → Str
  | 0, s => s
  | _ + 1, [] => []
  | fuel + 1, c :: rest =>
    if c.isDigit then
      let d1 := (c :: rest).takeWhile Char.isDigit
      let r1 := (c :: rest).dropWhile Char.isDigit
      match r1 with
      | p :: r2 =>
        if p = dotC then
          let d2 := r2.takeWhile Char.isDigit
          if d2.isEmpty then c :: fixDecimalsF fuel rest
          else d1 ++ strL " point " ++ d2 ++ fixDecimalsF fuel (r2.dropWhile Char.isDigit)
        else c :: fixDecimalsF fuel rest
      | [] => c :: fixDecimalsF fuel rest
    else c :: fixDecimalsF fuel rest

def fixDecimals (s : Str) : Str := fixDecimalsF (s.length + 1) s

/-- `/\$(\d+)/g → "$1 dollars"`. -/
def fixCurrencyF : Nat → Str → Str
  | 0, s => s
  | _ + 1, [] => []
  | fuel + 1, c :: rest =>
    if c = dollarC then
      let d := rest.takeWhile Char.isDigit
      if d.isEmpty then c :: fixCurrencyF fuel rest
      else d ++ strL " dollars" ++ fixCurrencyF fuel (rest.dropWhile Char.isDigit)
    else c :: fixCurrencyF fuel rest

def fixCurrency (s : Str) : Str := fixCurrencyF (s.length + 1) s

/-- `/(\d+)%/g → "$1 percent"`. -/
def fixPercentF : Nat → Str → Str
  | 0, s => s
  | _ + 1, [] => []
  | fuel + 1, c :: rest =>
    if c.isDigit then
      let d := (c :: rest).takeWhile Char.isDigit
      let r1 := (c :: rest).dropWhile Char.isDigit
      match r1 with
      | p :: r2 =>
        if p = pctC then d ++ strL " percent" ++ fixPercentF fuel r2
        else c :: fixPercentF fuel rest
      | [] => c :: fixPercentF fuel rest
    else c :: fixPercentF fuel rest

def fixPercent (s : Str) : Str := fixPercentF (s.length + 1) s

/-- `/https?:\/\/[^\s]+/g → "web link"` (at least one non-whitespace
character must follow the scheme). -/
def fixUrlsF : Nat → Str → Str
  | 0, s => s
  | _ + 1, [] => []
  | fuel + 1, c :: rest =>
    let sIn := c :: rest
    let tailAfterScheme :=
      if (strL "https://").isPrefixOf sIn then some (sIn.drop 8)
      else if (strL "http://").isPrefixOf sIn then some (sIn.drop 7)
      else none
    match tailAfterScheme with
    | some t =>
      let body := t.takeWhile (fun x => !isWsChar x)
      if body.isEmpty then c :: fixUrlsF fuel rest
      else strL "web link" ++ fixUrlsF fuel (t.dropWhile (fun x => !isWsChar x))
    | none => c :: fixUrlsF fuel rest

def fixUrls (s : Str) : Str := fixUrlsF (s.length + 1) s

def isEmailLocalC (c : Char) : Bool :=
  c.isAlpha || c.isDigit || c = dotC || c = underC || c = pctC || c = plusC || c = dashC

def isEmailDomainC (c : Char) : Bool := c.isAlpha || c.isDigit || c = dotC || c = dashC

/-- Is position `k` of the domain run a dot followed by at least two letters
(the `\.[a-zA-Z]{2,}` tail) with a non-empty `[a-zA-Z0-9.-]+` part before
it?  Used while backtracking the greedy domain run. -/
def emailDotOk (dom : Str) (k : Nat) : Bool :=
  1 ≤ k &&
    match dom.drop k with
    | p :: a :: b :: _ => p = dotC && a.isAlpha && b.isAlpha
    | _ => false

/-- `/[a-zA-Z0-9._%+-]+@[a-zA-Z0-9.-]+\.[a-zA-Z]{2,}/g → "email address"`.
The greedy local part must reach a literal `@` (no shorter split can, since
`@` is not in the class); the greedy domain run backtracks to the last dot
followed by at least two letters; the TLD then covers the maximal letter run
after that dot. -/
def fixEmailsF : Nat → Str → Str
  | 0, s => s
  | _ + 1, [] => []
  | fuel + 1, c :: rest =>
    if isEmailLocalC c then
      let afterLocal := (c :: rest).dropWhile isEmailLocalC
      match afterLocal with
      | a :: afterAt =>
        if a = atC then
          let dom := afterAt.takeWhile isEmailDomainC
          match ((List.range dom.length).reverse).find? (emailDotOk dom) with
          | some k =>
            let tldLen := ((dom.drop (k + 1)).takeWhile Char.isAlpha).length
            strL "email address" ++ fixEmailsF fuel (afterAt.drop (k + 1 + tldLen))
          | none => c :: fixEmailsF fuel rest
        else c :: fixEmailsF fuel rest
      | [] => c :: fixEmailsF fuel rest
    else c :: fixEmailsF fuel rest

def fixEmails (s : Str) : Str := fixEmailsF (s.length + 1) s

/-- `/([X])\s+/g → "$1<suffix>"` for the pause rewrites (`X` a target set);
the replacement suffix carries its trailing space. -/
def pausePunctF (isTarget : Char → Bool) (suffix : Str) : Nat → Str → Str
  | 0, s => s
  | _ + 1, [] => []
  | fuel + 1, c :: rest =>
    if isTarget c && !(rest.takeWhile isWsChar).isEmpty then
      c :: suffix ++ pausePunctF isTarget suffix fuel (rest.dropWhile isWsChar)
    else c :: pausePunctF isTarget suffix fuel rest

def pauseStops (suffix : Str) (s : Str) : Str := pausePunctF isStopC suffix (s.length + 1) s

def pauseClauses (suffix : Str) (s : Str) : Str :=
  pausePunctF (fun c => c = commaC || c = semiC) suffix (s.length + 1) s

def pauseColons (suffix : Str) (s : Str) : Str :=
  pausePunctF (fun c => c = colonC) suffix (s.length + 1) s

/-- `s.replace(pattern, repl)` for a single-character global pattern; the
replacement is not rescanned. -/
def expandChar (target : Char) (repl : Str) (s : Str) : Str :=
  s.foldr (fun c acc => if c = target then repl ++ acc else c :: acc) []

/-- Web-speech final scrub `/[^\w\s.,!?;:()-]/g → " "`. -/
def isWebKeptC (c : Char) : Bool :=
  isWordC c || isWsChar c || c = dotC || c = commaC || c = bangC || c = qmC ||
    c = semiC || c = colonC || c = lparC || c = rparC || c = dashC

def scrubWeb (s : Str) : Str := s.map (fun c => if isWebKeptC c then c else spaceC)

/-- `preprocessTextForSpeech(text, engine)`: the shared rewrites in source
order, then the engine-specific pause markup.  Engine strings other than
`"web-speech"` take the open-tts branch, as in the source's equality test. -/
def preprocessTextForSpeech (text : Str) (engine : TtsEngine) : Str :=
  let t := trimL text
  let t := collapseWs t
  let t := fixStopRuns t
  let t := fixCommaRuns t
  let t := fixSemiRuns t
  let t := fixAcronyms t
  let t := fixDecimals t
  let t := fixCurrency t
  let t := fixPercent t
  let t := fixUrls t
  let t := fixEmails t
  if engine = TtsEngine.webSpeech then
    let t := pauseStops (strL " ... ") t
    let t := pauseClauses (strL " .. ") t
    let t := pauseColons (strL " ... ") t
    let t := expandChar lparC (strL ".. (") t
    let t := expandChar rparC (strL ") ..") t
    let t := expandChar dquoteC (strL " quote ") t
    let t := expandChar squoteC (strL " ") t
    let t := scrubWeb t
    collapseWs t
  else
    let t := pauseStops (strL "... ") t
    let t := pauseClauses (strL ".. ") t
    let t := pauseColons (strL "... ") t
    let t := expandChar lparC (strL ".. (") t
    expandChar rparC (strL ") ..") t

/-! ## Chunking (splitTextIntoChunks) -/

/-- `processedText.split(/([.!?]+\s*)/)`: JS `split` with a capturing group
interleaves the captured separators with the text pieces, producing
`[text, sep, text, sep, …, text]`; empty text pieces appear between adjacent
separators and at either end.  The separator is a maximal `[.!?]` run plus
the following whitespace run. -/
def splitSentencesF : Nat → Str → List Str
  | 0, s => [s]
  | fuel + 1, s =>
    let text := s.takeWhile (fun c => !isStopC c)
    let rest := s.dropWhile (fun c => !isStopC c)
    match rest with
    | [] => [text]
    | _ :: _ =>
      let stops := rest.takeWhile isStopC
      let r2 := rest.dropWhile isStopC
      let ws := r2.takeWhile isWsChar
      let r3 := r2.dropWhile isWsChar
      text :: (stops ++ ws) :: splitSentencesF fuel r3

def splitSentences (s : Str) : List Str := splitSentencesF (s.length + 1) s

/-- `sentence.split(/([,;]\s*)/)`: the separator is one `,`/`;` plus the
following whitespace run. -/
def splitClausesF : Nat → Str → List Str
  | 0, s => [s]
  | fuel + 1, s =>
    let text := s.takeWhile (fun c => !(c = commaC || c = semiC))
    let rest := s.dropWhile (fun c => !(c = commaC || c = semiC))
    match rest with
    | [] => [text]
    | p :: r2 =>
      let ws := r2.takeWhile isWsChar
      let r3 := r2.dropWhile isWsChar
      text :: (p :: ws) :: splitClausesF fuel r3

def splitClauses (s : Str) : List Str := splitClausesF (s.length + 1) s

/-- `clause.split(" ")`: split at every single space; adjacent spaces give
empty pieces. -/
def splitWordsF : Nat → Str → List Str
  | 0, s => [s]
  | fuel + 1, s =>
    let w := s.takeWhile (fun c => !(c = spaceC))
    let rest := s.dropWhile (fun c => !(c = spaceC))
    match rest with
    | [] => [w]
    | _ :: r2 => w :: splitWordsF fuel r2

def splitWords (s : Str) : List Str := splitWordsF (s.length + 1) s

/-- The `for (let i = 0; i < parts.length; i += 2)` pairing
`parts[i] + (parts[i+1] || "")` applied to a split-with-captures result. -/
def pairUp : List Str → List Str
  | [] => []
  | [t] => [t]
  | t :: sep :: rest => (t ++ sep) :: pairUp rest

/-- `if (currentChunk.trim()) { chunks.push(currentChunk.trim());
currentChunk = "" }` — note the chunk is NOT reset when its trim is empty. -/
def pushCur (st : List Str × Str) : List Str × Str :=
  if trimL st.2 ≠ [] then (st.1 ++ [trimL st.2], []) else st

/-- The word-loop body: conditional flush, then append the word with a space
separator when the chunk is non-empty. -/
def stepWord (eff : Nat) (st : List Str × Str) (w : Str) : List Str × Str :=
  let st := if eff < st.2.length + w.length + 1 then pushCur st else st
  (st.1, st.2 ++ (if st.2.isEmpty then [] else [spaceC]) ++ w)

/-- The clause-loop body: flush and descend to words when the clause alone
exceeds the bound, overwrite the (just-flushed) chunk when it fits alone,
append otherwise. -/
def stepClause (eff : Nat) (st : List Str × Str) (cl : Str) : List Str × Str :=
  if eff < st.2.length + cl.length then
    let st := pushCur st
    if eff < cl.length then (splitWords cl).foldl (stepWord eff) st
    else (st.1, cl)
  else (st.1, st.2 ++ cl)

/-- The sentence-loop body, descending to clauses for oversized sentences. -/
def stepSentence (eff : Nat) (st : List Str × Str) (sen : Str) : List Str × Str :=
  if eff < st.2.length + sen.length then
    let st := pushCur st
    if eff < sen.length then (pairUp (splitClauses sen)).foldl (stepClause eff) st
    else (st.1, sen)
  else (st.1, st.2 ++ sen)

/-- The chunk-accumulation loop of `splitTextIntoChunks` over the processed
text, with the final flush and the empty-chunk filter. -/
def chunkCore (processed : Str) (eff : Nat) : List Str :=
  let st := (pairUp (splitSentences processed)).foldl (stepSentence eff) ([], [])
  (pushCur st).1.filter (fun c => 0 < c.length)

/-- `effectiveChunkSize`: doubled for the web-speech engine. -/
def effectiveBound (maxChunkSize : Nat) (engine : TtsEngine) : Nat :=
  if engine = TtsEngine.webSpeech then maxChunkSize * 2 else maxChunkSize

/-- `splitTextIntoChunks(text, maxChunkSize, engine)`: preprocess, return the
whole text as one chunk when it already fits `maxChunkSize`, else run the
hierarchical splitter at the effective bound. -/
def splitTextIntoChunks (text : Str) (maxChunkSize : Nat) (engine : TtsEngine) : List Str :=
  let processedText := preprocessTextForSpeech text engine
  if processedText.length ≤ maxChunkSize then [processedText]
  else chunkCore processedText (effectiveBound maxChunkSize engine)

/-! ### Chunk-bound invariant (C6) and the empty-chunk fast path (C7) -/

theorem foldlInvMem {β : Type} (P : List Str × Str → Prop)
    (f : List Str × Str → β → List Str × Str) :
    ∀ (l : List β) (st : List Str × Str), P st →
      (∀ st' x, x ∈ l → P st' → P (f st' x)) → P (l.foldl f st) := by
  intro l
  induction l with
  | nil => intro st h _; exact h
  | cons x rest ih =>
    intro st h hf
    simp only [List.foldl_cons]
    exact ih (f st x) (hf st x (List.mem_cons_self x rest) h)
      (fun st' y hy => hf st' y (List.mem_cons_of_mem _ hy))

theorem lenDropWhile (p : Char → Bool) : ∀ l : Str, (l.dropWhile p).length ≤ l.length := by
  intro l
  induction l with
  | nil => simp
  | cons c rest ih =>
    rw [List.dropWhile_cons]
    split
    · exact le_trans ih (Nat.le_succ _)
    · exact le_refl _

theorem memDropWhile (p : Char → Bool) : ∀ (l : Str) (a : Char), a ∈ l.dropWhile p → a ∈ l := by
  intro l
  induction l with
  | nil => intro a h; exact h
  | cons c rest ih =>
    intro a h
    rw [List.dropWhile_cons] at h
    by_cases hc : p c = true
    · rw [if_pos hc] at h
      exact List.mem_cons_of_mem _ (ih a h)
    · rw [if_neg hc] at h
      exact h

theorem memTakeWhile (p : Char → Bool) :
    ∀ (l : Str) (a : Char), a ∈ l.takeWhile p → p a = true ∧ a ∈ l := by
  intro l
  induction l with
  | nil => intro a h; simp at h
  | cons c rest ih =>
    intro a h
    rw [List.takeWhile_cons] at h
    by_cases hc : p c = true
    · rw [if_pos hc] at h
      rcases List.mem_cons.mp h with h1 | h1
      · subst h1; exact ⟨hc, List.mem_cons_self _ _⟩
      · obtain ⟨hp, hm⟩ := ih a h1
        exact ⟨hp, List.mem_cons_of_mem _ hm⟩
    · rw [if_neg hc] at h
      simp at h

theorem dropWhileEqNil (p : Char → Bool) :
    ∀ l : Str, l.dropWhile p = [] → ∀ c ∈ l, p c = true := by
  intro l
  induction l with
  | nil => intro _ c hc; simp at hc
  | cons d rest ih =>
    intro h c hc
    rw [List.dropWhile_cons] at h
    by_cases hd : p d = true
    · rw [if_pos hd] at h
      rcases List.mem_cons.mp hc with h1 | h1
      · subst h1; exact hd
      · exact ih h c h1
    · rw [if_neg hd] at h
      simp at h

theorem dropWhileAppendAll (p : Char → Bool) :
    ∀ (a s : Str), (∀ c ∈ a, p c = true) → (a ++ s).dropWhile p = s.dropWhile p := by
  intro a
  induction a with
  | nil => intro s _; simp
  | cons c rest ih =>
    intro s ha
    rw [List.cons_append, List.dropWhile_cons, if_pos (ha c (List.mem_cons_self _ _))]
    exact ih s (fun d hd => ha d (List.mem_cons_of_mem _ hd))

theorem trimL_length_le (s : Str) : (trimL s).length ≤ s.length := by
  unfold trimL
  rw [List.length_reverse]
  calc ((s.dropWhile isWsChar).reverse.dropWhile isWsChar).length
      ≤ (s.dropWhile isWsChar).reverse.length := lenDropWhile _ _
    _ = (s.dropWhile isWsChar).length := List.length_reverse _
    _ ≤ s.length := lenDropWhile _ _

theorem mem_trimL (s : Str) (a : Char) (h : a ∈ trimL s) : a ∈ s := by
  unfold trimL at h
  rw [List.mem_reverse] at h
  have h2 := memDropWhile _ _ _ h
  rw [List.mem_reverse] at h2
  exact memDropWhile _ _ _ h2

theorem trimL_eq_nil_all (s : Str) (h : trimL s = []) : ∀ c ∈ s, isWsChar c = true := by
  intro c hc
  unfold trimL at h
  rw [List.reverse_eq_nil_iff] at h
  have hcc : c ∈ s.takeWhile isWsChar ++ s.dropWhile isWsChar := by
    rw [List.takeWhile_append_dropWhile]
    exact hc
  rcases List.mem_append.mp hcc with h1 | h1
  · exact (memTakeWhile _ _ _ h1).1
  · have hall := dropWhileEqNil isWsChar _ h
    exact hall c (List.mem_reverse.mpr h1)

theorem trimL_ws_append (a s : Str) (ha : ∀ c ∈ a, isWsChar c = true) :
    trimL (a ++ s) = trimL s := by
  unfold trimL
  rw [dropWhileAppendAll isWsChar a s ha]

/-- The per-chunk guarantee: within the bound, or a single space-free word. -/
def chunkOk (eff : Nat) (c : Str) : Prop := c.length ≤ eff ∨ spaceC ∉ c

/-- Loop invariant of the chunk accumulation: every emitted chunk satisfies
`chunkOk`, and the working chunk is within the bound unless its trim is a
single space-free word (it exceeds the bound only right after an oversized
word was placed into an empty or all-whitespace chunk). -/
def chunkInv (eff : Nat) (st : List Str × Str) : Prop :=
  (∀ c ∈ st.1, chunkOk eff c) ∧ (st.2.length ≤ eff ∨ spaceC ∉ trimL st.2)

theorem chunkOk_trim_of_cur (eff : Nat) (cur : Str)
    (h : cur.length ≤ eff ∨ spaceC ∉ trimL cur) : chunkOk eff (trimL cur) := by
  rcases h with h | h
  · exact Or.inl (le_trans (trimL_length_le cur) h)
  · exact Or.inr h

theorem pushCur_inv (eff : Nat) (st : List Str × Str) (h : chunkInv eff st) :
    chunkInv eff (pushCur st) := by
  unfold pushCur
  split
  · refine ⟨?_, Or.inl (by simp)⟩
    intro c hc
    rcases List.mem_append.mp hc with h1 | h1
    · exact h.1 c h1
    · rw [List.mem_singleton] at h1
      subst h1
      exact chunkOk_trim_of_cur eff st.2 h.2
  · exact h

theorem pushCur_snd (st : List Str × Str) :
    (pushCur st).2 = [] ∨ ((pushCur st).2 = st.2 ∧ trimL st.2 = []) := by
  unfold pushCur
  split
  · exact Or.inl rfl
  · next hne => exact Or.inr ⟨rfl, not_not.mp hne⟩

theorem stepWord_inv (eff : Nat) (st : List Str × Str) (w : Str) (hw : spaceC ∉ w)
    (h : chunkInv eff st) : chunkInv eff (stepWord eff st w) := by
  simp only [stepWord]
  by_cases hc : eff < st.2.length + w.length + 1
  · rw [if_pos hc]
    have h' := pushCur_inv eff st h
    refine ⟨h'.1, ?_⟩
    rcases pushCur_snd st with h2 | ⟨h2, h3⟩
    · rw [h2]
      right
      simp only [List.isEmpty_nil, if_true, List.nil_append]
      exact fun hsp => hw (mem_trimL _ _ hsp)
    · rw [h2]
      right
      have hws : ∀ c ∈ st.2, isWsChar c = true := trimL_eq_nil_all _ h3
      have hall : ∀ c ∈ st.2 ++ (if st.2.isEmpty then ([] : Str) else [spaceC]),
          isWsChar c = true := by
        intro c hcm
        rcases List.mem_append.mp hcm with h4 | h4
        · exact hws c h4
        · split at h4
          · simp at h4
          · rw [List.mem_singleton] at h4
            subst h4
            decide
      rw [trimL_ws_append (st.2 ++ (if st.2.isEmpty then ([] : Str) else [spaceC])) w hall]
      exact fun hsp => hw (mem_trimL _ _ hsp)
  · rw [if_neg hc]
    refine ⟨h.1, Or.inl ?_⟩
    have hlen : st.2.length + w.length + 1 ≤ eff := Nat.le_of_not_lt hc
    rw [List.length_append, List.length_append]
    have hsep : (if st.2.isEmpty then ([] : Str) else [spaceC]).length ≤ 1 := by
      split <;> simp
    omega

theorem splitWordsF_noSpace : ∀ (fuel : Nat) (s : Str), s.length ≤ fuel →
    ∀ w ∈ splitWordsF fuel s, spaceC ∉ w := by
  intro fuel
  induction fuel with
  | zero =>
    intro s hs w hw
    have hnil : s = [] := List.length_eq_zero.mp (Nat.le_zero.mp hs)
    subst hnil
    simp only [splitWordsF, List.mem_singleton] at hw
    subst hw
    simp
  | succ f ih =>
    intro s hs w hw
    simp only [splitWordsF] at hw
    cases hrest : s.dropWhile (fun c => !(c = spaceC)) with
    | nil =>
      rw [hrest] at hw
      simp only [List.mem_singleton] at hw
      subst hw
      intro hsp
      have := (memTakeWhile _ _ _ hsp).1
      simp at this
    | cons p r2 =>
      rw [hrest] at hw
      simp only [List.mem_cons] at hw
      rcases hw with hw | hw
      · subst hw
        intro hsp
        have := (memTakeWhile _ _ _ hsp).1
        simp at this
      · refine ih r2 ?_ w hw
        have h1 := lenDropWhile (fun c => !(c = spaceC)) s
        rw [hrest] at h1
        simp only [List.length_cons] at h1
        omega

theorem splitWords_noSpace (s : Str) : ∀ w ∈ splitWords s, spaceC ∉ w :=
  splitWordsF_noSpace (s.length + 1) s (Nat.le_succ _)

theorem stepClause_inv (eff : Nat) (st : List Str × Str) (cl : Str)
    (h : chunkInv eff st) : chunkInv eff (stepClause eff st cl) := by
  simp only [stepClause]
  by_cases h1 : eff < st.2.length + cl.length
  · rw [if_pos h1]
    have h' := pushCur_inv eff st h
    by_cases h2 : eff < cl.length
    · rw [if_pos h2]
      exact foldlInvMem (chunkInv eff) (stepWord eff) (splitWords cl) (pushCur st) h'
        (fun st' w hwmem hst' => stepWord_inv eff st' w (splitWords_noSpace cl w hwmem) hst')
    · rw [if_neg h2]
      exact ⟨h'.1, Or.inl (Nat.le_of_not_lt h2)⟩
  · rw [if_neg h1]
    refine ⟨h.1, Or.inl ?_⟩
    rw [List.length_append]
    exact Nat.le_of_not_lt h1

theorem stepSentence_inv (eff : Nat) (st : List Str × Str) (sen : Str)
    (h : chunkInv eff st) : chunkInv eff (stepSentence eff st sen) := by
  simp only [stepSentence]
  by_cases h1 : eff < st.2.length + sen.length
  · rw [if_pos h1]
    have h' := pushCur_inv eff st h
    by_cases h2 : eff < sen.length
    · rw [if_pos h2]
      exact foldlInvMem (chunkInv eff) (stepClause eff) (pairUp (splitClauses sen))
        (pushCur st) h' (fun st' cl _ hst' => stepClause_inv eff st' cl hst')
    · rw [if_neg h2]
      exact ⟨h'.1, Or.inl (Nat.le_of_not_lt h2)⟩
  · rw [if_neg h1]
    refine ⟨h.1, Or.inl ?_⟩
    rw [List.length_append]
    exact Nat.le_of_not_lt h1

theorem chunkCore_bound (processed : Str) (eff : Nat) :
    ∀ c ∈ chunkCore processed eff, chunkOk eff c := by
  intro c hc
  simp only [chunkCore] at hc
  have hinv : chunkInv eff
      ((pairUp (splitSentences processed)).foldl (stepSentence eff) ([], [])) :=
    foldlInvMem (chunkInv eff) (stepSentence eff) _ ([], [])
      ⟨fun c hc => absurd hc (List.not_mem_nil c), Or.inl (Nat.zero_le eff)⟩
      (fun st x _ h => stepSentence_inv eff st x h)
  exact (pushCur_inv eff _ hinv).1 c (List.mem_of_mem_filter hc)

/-- C6: for every input text and target size, every chunk of
`splitTextIntoChunks` either has length within the effective bound (2× the
target size for the web-speech engine, the target size unmodified for
open-tts) or contains no space character — the pipeline collapses all
whitespace runs to single spaces and the word splitter cuts at spaces, so a
space-free chunk is a single word, emitted alone because it alone exceeds
the bound. -/
theorem C6_chunk_size_bound (text : Str) (maxChunkSize : Nat) (engine : TtsEngine)
    (c : Str) (hc : c ∈ splitTextIntoChunks text maxChunkSize engine) :
    c.length ≤ effectiveBound maxChunkSize engine ∨ spaceC ∉ c := by
  simp only [splitTextIntoChunks] at hc
  by_cases hlen : (preprocessTextForSpeech text engine).length ≤ maxChunkSize
  · rw [if_pos hlen] at hc
    rw [List.mem_singleton] at hc
    subst hc
    left
    refine le_trans hlen ?_
    simp only [effectiveBound]
    split
    · omega
    · exact le_refl _
  · rw [if_neg hlen] at hc
    exact chunkCore_bound _ _ c hc

theorem C6_chunk_size_bound_witness :
    (strL "hi" ∈ splitTextIntoChunks (strL "hi") 500 TtsEngine.openTts) ∧
    ((strL "hi").length ≤ effectiveBound 500 TtsEngine.openTts ∨ spaceC ∉ strL "hi") :=
  ⟨by decide, C6_chunk_size_bound (strL "hi") 500 TtsEngine.openTts (strL "hi") (by decide)⟩

/-- C7, evaluated at the failing inputs: for empty or whitespace-only text
the processed text is empty, the `length <= maxChunkSize` fast path returns
it verbatim, and the result is `[""]` — one empty chunk — bypassing the
`filter(chunk => chunk.length > 0)` that expresses the no-empty-chunk
intent. -/
theorem C7_empty_chunk_evaluation :
    splitTextIntoChunks (strL "") 500 TtsEngine.openTts = [strL ""] ∧
    splitTextIntoChunks (strL "   ") 500 TtsEngine.openTts = [strL ""] ∧
    splitTextIntoChunks (strL "") 500 TtsEngine.webSpeech = [strL ""] :=
  ⟨rfl, rfl, rfl⟩
